import Mathlib

set_option maxRecDepth 8000

/-!
Verification of the Thunderstore packaging workflow implemented in
`package-thunderstore.py`.  The script is embedded shallowly: Python strings
become lists of Unicode code points, `pathlib` paths become lists of path
components, and the filesystem becomes an explicit record of directories and
files that every operation threads.  Fallible operations return `Except`
values; `sys.exit(1)` on the missing-required-files path is reflected as an
explicit exit outcome carrying the printed data.
-/

namespace TSP

/-- Python strings, modelled as their sequences of Unicode code points. -/
abbrev PyStr := List Char

/-- Embed a Lean string literal as a Python string value. -/
def str (s : String) : PyStr := s.toList

/-- Filesystem paths (`pathlib.Path`), modelled as lists of path components. -/
abbrev Path := List PyStr

/-- Python values that can end up in `args.variant`: `argparse` yields the
supplied string, or — because the source sets `default=['IL2CPP-BepInEx6']`
(line 237) and argparse does not validate defaults against `choices` — the
default list object when the flag is omitted. -/
inductive PyVal where
  | s (v : PyStr)
  | list (vs : List PyStr)
deriving DecidableEq

/-- Python `repr` of a plain string (no quotes or escapes inside), as used by
`str()` on a list: a single-quote character around the contents. -/
def pyRepr (v : PyStr) : PyStr := Char.ofNat 39 :: (v ++ [Char.ofNat 39])

/-- Join rendered list elements with a comma and space, as Python does. -/
def commaJoin : List PyStr → PyStr
  | [] => []
  | [v] => v
  | v :: vs => v ++ str ", " ++ commaJoin vs

/-- Rendering of a Python value inside an f-string (`str()`):
a string renders as itself, a list as the bracketed repr of its elements. -/
def pyFormat : PyVal → PyStr
  | PyVal.s v => v
  | PyVal.list vs => str "[" ++ commaJoin (vs.map pyRepr) ++ str "]"

/-- The manifest record built by `create_manifest` (lines 100–106): exactly
the keys `name`, `version_number`, `website_url`, `description`,
`dependencies`. -/
structure Manifest where
  name : PyStr
  version_number : PyStr
  website_url : PyStr
  description : PyStr
  dependencies : List PyStr
deriving DecidableEq

/-- File contents.  A manifest file is determined by the manifest record
serialized into it; an image file carries the dimensions and encoded format
that `PIL.Image.open` would report; a zip archive carries its entries as
(relative path, content) pairs; any other byte blob is abstracted by a tag. -/
inductive Content where
  | manifestFile (m : Manifest)
  | image (w h : Nat) (format : PyStr)
  | blob (n : Nat)
  | zipData (entries : List (Path × Content))

/-- The filesystem: the set of existing directories and the files with their
contents.  `writeFile` keeps at most one entry per path. -/
structure FS where
  dirs : List Path
  files : List (Path × Content)

/-- Look up the content stored for a path in a file list (first match). -/
def lookupFile : List (Path × Content) → Path → Option Content
  | [], _ => none
  | f :: l, p => if f.1 = p then some f.2 else lookupFile l p

/-- Remove every entry stored at the given path from a file list. -/
def removeFile : List (Path × Content) → Path → List (Path × Content)
  | [], _ => []
  | f :: l, p => if f.1 = p then removeFile l p else f :: removeFile l p

/-- Membership of a path in a directory list. -/
def memPath : List Path → Path → Bool
  | [], _ => false
  | d :: l, p => if d = p then true else memPath l p

/-- Read a file's content (`open(p).read()` / `Image.open` / `ZipFile`);
`none` when no file is at the path (it may still be a directory). -/
def readFile (p : Path) (fs : FS) : Option Content :=
  lookupFile fs.files p

/-- Whether a directory exists at the path. -/
def dirMem (p : Path) (fs : FS) : Bool :=
  memPath fs.dirs p

/-- `Path.exists()`: true when a file or a directory is at the path. -/
def pexists (p : Path) (fs : FS) : Bool :=
  (readFile p fs).isSome || dirMem p fs

/-- Write a file (`open(p, 'w')` / `shutil.copy2` destination / zip entry
extraction), replacing any previous file at the path. -/
def writeFile (p : Path) (c : Content) (fs : FS) : FS :=
  { dirs := fs.dirs, files := (p, c) :: removeFile fs.files p }

/-- `Path.mkdir`: record the directory as existing. -/
def mkdir (d : Path) (fs : FS) : FS :=
  { dirs := d :: fs.dirs, files := fs.files }

/-- If `d` is a prefix of `p`, return the remaining relative components
(`p.relative_to(d)`); `none` when `p` is not inside `d` (nor `d` itself). -/
def stripDir : Path → Path → Option Path
  | [], p => some p
  | _ :: _, [] => none
  | a :: d, b :: p => if a = b then stripDir d p else none

/-- Drop from a file list every entry lying at or below directory `d`. -/
def dropUnderF : List (Path × Content) → Path → List (Path × Content)
  | [], _ => []
  | f :: l, d => if (stripDir d f.1).isSome then dropUnderF l d else f :: dropUnderF l d

/-- Drop from a directory list every path lying at or below directory `d`. -/
def dropUnderD : List Path → Path → List Path
  | [], _ => []
  | q :: l, d => if (stripDir d q).isSome then dropUnderD l d else q :: dropUnderD l d

/-- `shutil.rmtree(d)`: remove the directory `d` with every directory and
file below it. -/
def rmtree (d : Path) (fs : FS) : FS :=
  { dirs := dropUnderD fs.dirs d, files := dropUnderF fs.files d }

/-- `ZipFile.extractall(dst)`: write each entry below `dst`, in archive
order, later entries overwriting earlier ones. -/
def extractAll (dst : Path) (entries : List (Path × Content)) (fs : FS) : FS :=
  entries.foldl (fun a e => writeFile (dst ++ e.1) e.2 a) fs

/-- The entries of a file list lying strictly below directory `d`, keyed by
their paths relative to `d`. -/
def relFiles : List (Path × Content) → Path → List (Path × Content)
  | [], _ => []
  | f :: l, d =>
    match stripDir d f.1 with
    | some rel => if rel.isEmpty then relFiles l d else (rel, f.2) :: relFiles l d
    | none => relFiles l d

/-- The files lying strictly below directory `d`, keyed by their paths
relative to `d` (`os.walk` with `relative_to`, lines 198–201). -/
def walkFiles (d : Path) (fs : FS) : List (Path × Content) :=
  relFiles fs.files d

/-- Exceptions the packaging steps can raise: `FileNotFoundError` (line 161)
is caught specially at top level (line 366); any other exception
(`shutil.copy2` on a directory, a corrupt zip, …) falls to the generic
handler (line 369). -/
inductive PyErr where
  | fileNotFound (p : Path)
  | otherError
deriving DecidableEq

/-- Warnings and error prints the script emits while proceeding. -/
inductive Warn where
  | iconNotFound (p : Path)
  | iconBadSize (w h : Nat)
  | iconBadFormat (f : PyStr)
  | pilMissing
  | iconUnvalidatable
  | iconValidationFailed
  | noIcon (p : Path)
  | noReadme (p : Path)
  | descriptionTruncated
deriving DecidableEq

/-- The packager's configuration (`__init__`, lines 25–43). -/
structure Packager where
  output_dir : Path
  thunderstore_dir : Path
  variant : PyVal
  version : PyStr

/-- `self.temp_dir = thunderstore_dir / f"temp_{variant}"` (line 43). -/
def temp_dir (pk : Packager) : Path :=
  pk.thunderstore_dir ++ [str "temp_" ++ pyFormat pk.variant]

/-- `ICON_SIZE = (256, 256)` (line 23). -/
def ICON_SIZE : Nat × Nat := (256, 256)

/-- `REQUIRED_FILES = ['manifest.json', 'icon.png', 'README.md']` (line 22). -/
def REQUIRED_FILES : List PyStr :=
  [str "manifest.json", str "icon.png", str "README.md"]

/-- `validate_icon` (lines 45–75).  `pil` records whether `from PIL import
Image` succeeds.  Returns the boolean result and the warnings printed.
Opening a non-image (or a directory) raises and is caught by the generic
`except Exception` arm, returning false. -/
def validate_icon (pil : Bool) (icon_path : Path) (fs : FS) : Bool × List Warn :=
  if pexists icon_path fs = false then
    (false, [Warn.iconNotFound icon_path])
  else
    if pil then
      match readFile icon_path fs with
      | some (Content.image w h format) =>
        if (w, h) ≠ ICON_SIZE then (false, [Warn.iconBadSize w h])
        else if format ≠ str "PNG" then (false, [Warn.iconBadFormat format])
        else (true, [])
      | _ => (false, [Warn.iconUnvalidatable])
    else (true, [Warn.pilMissing])

/-- `create_manifest` (lines 77–108).  Takes `self.version` plus the call's
arguments in source order; the `namespace` parameter is accepted but unused
by the body.  Returns the manifest and the warnings printed. -/
def create_manifest (self_version : PyStr) (name : PyStr) (description : PyStr)
    (website_url : PyStr) (dependencies : List PyStr) (namespace_ : PyStr) :
    Manifest × List Warn :=
  if 250 < description.length then
    ({ name := name, version_number := self_version, website_url := website_url,
       description := description.take 247 ++ str "...",
       dependencies := dependencies }, [Warn.descriptionTruncated])
  else
    ({ name := name, version_number := self_version, website_url := website_url,
       description := description, dependencies := dependencies }, [])

/-- `shutil.copy2(src, dst)`: read the source file and write its content at
the destination; raises when the source is not a readable file. -/
def copy2 (src dst : Path) (fs : FS) : Except PyErr FS :=
  match readFile src fs with
  | some c => Except.ok (writeFile dst c fs)
  | none => Except.error PyErr.otherError

/-- The staging-directory reset at the start of `prepare_package`
(lines 125–128): delete the staging directory if it exists, then create it
fresh. -/
def resetTemp (pk : Packager) (fs : FS) : FS :=
  mkdir (temp_dir pk)
    (if pexists (temp_dir pk) fs then rmtree (temp_dir pk) fs else fs)

/-- The warnings printed by the validation call inside the icon step
(lines 139–143): the validator's own warnings, then the
validation-failed print when it returned false. -/
def iconWarns (pil : Bool) (ip : Path) (fs : FS) : List Warn :=
  (validate_icon pil ip fs).2 ++
    (if (validate_icon pil ip fs).1 then [] else [Warn.iconValidationFailed])

/-- The icon step of `prepare_package` (lines 136–147): when a path is given
and exists, validate (warnings only) and copy regardless of the validation
outcome; otherwise print the actionable warning naming the destination.
Returns the state, warnings, and the exception if the copy raised. -/
def iconPhase (pk : Packager) (pil : Bool) (icon_path : Option Path)
    (fs : FS) : FS × List Warn × Option PyErr :=
  match icon_path with
  | some ip =>
    if pexists ip fs then
      match copy2 ip (temp_dir pk ++ [str "icon.png"]) fs with
      | Except.ok fs' => (fs', iconWarns pil ip fs, none)
      | Except.error e => (fs, iconWarns pil ip fs, some e)
    else (fs, [Warn.noIcon (temp_dir pk ++ [str "icon.png"])], none)
  | none => (fs, [Warn.noIcon (temp_dir pk ++ [str "icon.png"])], none)

/-- The README step of `prepare_package` (lines 149–156). -/
def readmePhase (pk : Packager) (readme_path : Option Path)
    (fs : FS) : FS × List Warn × Option PyErr :=
  match readme_path with
  | some rp =>
    if pexists rp fs then
      match copy2 rp (temp_dir pk ++ [str "README.md"]) fs with
      | Except.ok fs' => (fs', [], none)
      | Except.error e => (fs, [], some e)
    else (fs, [Warn.noReadme (temp_dir pk ++ [str "README.md"])], none)
  | none => (fs, [Warn.noReadme (temp_dir pk ++ [str "README.md"])], none)

/-- `build_zip = output_dir / f"MLLoader-{variant}-v{version}.zip"`
(line 159). -/
def build_zip_path (pk : Packager) : Path :=
  pk.output_dir ++
    [str "MLLoader-" ++ pyFormat pk.variant ++ str "-v" ++ pk.version ++ str ".zip"]

/-- The build-extraction step of `prepare_package` (lines 158–167): raise
`FileNotFoundError` when the artifact archive is absent, otherwise extract
its full contents into the staging directory. -/
def zipPhase (pk : Packager) (fs : FS) : FS × Except PyErr Path :=
  if pexists (build_zip_path pk) fs then
    match readFile (build_zip_path pk) fs with
    | some (Content.zipData es) =>
      (extractAll (temp_dir pk) es fs, Except.ok (temp_dir pk))
    | _ => (fs, Except.error PyErr.otherError)
  else (fs, Except.error (PyErr.fileNotFound (build_zip_path pk)))

/-- The state written by the manifest step of `prepare_package` (lines
130–134). -/
def manifestWrite (pk : Packager) (m : Manifest) (fs2 : FS) : FS :=
  writeFile (temp_dir pk ++ [str "manifest.json"]) (Content.manifestFile m) fs2

/-- Repackage the build-extraction outcome with the accumulated warnings. -/
def zipWrap : FS × Except PyErr Path → List Warn → FS × List Warn × Except PyErr Path
  | (fsz, z), w => (fsz, w, z)

/-- Continue after the icon step: propagate an icon-copy exception, else run
the README step and then the build extraction (lines 149–167). -/
def readmeWrap (pk : Packager) (readme_path : Option Path) (wi : List Warn) :
    FS × List Warn × Option PyErr → FS × List Warn × Except PyErr Path
  | (fsr, wr, some e) => (fsr, wi ++ wr, Except.error e)
  | (fsr, wr, none) => zipWrap (zipPhase pk fsr) (wi ++ wr)

/-- Continue after the manifest write: run the icon step and the rest
(lines 136–167). -/
def iconWrap (pk : Packager) (readme_path : Option Path) :
    FS × List Warn × Option PyErr → FS × List Warn × Except PyErr Path
  | (fsi, wi, some e) => (fsi, wi, Except.error e)
  | (fsi, wi, none) => readmeWrap pk readme_path wi (readmePhase pk readme_path fsi)

/-- The body of `prepare_package` after the staging reset (lines 130–167):
write `manifest.json`, run the icon and README steps, then extract the build
archive.  Returns the state at return or raise time, the warnings printed,
and the result. -/
def stagePost (pk : Packager) (pil : Bool) (manifest_data : Manifest)
    (icon_path readme_path : Option Path) (fs2 : FS) :
    FS × List Warn × Except PyErr Path :=
  iconWrap pk readme_path
    (iconPhase pk pil icon_path (manifestWrite pk manifest_data fs2))

/-- `prepare_package` (lines 110–167). -/
def prepare_package (pk : Packager) (pil : Bool) (manifest_data : Manifest)
    (icon_path readme_path : Option Path) (fs : FS) :
    FS × List Warn × Except PyErr Path :=
  stagePost pk pil manifest_data icon_path readme_path (resetTemp pk fs)

/-- Outcome of `create_package`: `sys.exit(1)` printing the missing-file list
and the staging path (lines 185–189), or the created archive's path. -/
inductive CPOut where
  | exited (code : Nat) (missing : List PyStr) (at_dir : Path)
  | ok (archive : Path)

/-- `output_name = f"BepInEx-MelonLoader_Loader-{variant}-{version}.zip"`
(line 192): a fixed prefix followed by the variant tag and version. -/
def output_name (pk : Packager) : PyStr :=
  str "BepInEx-MelonLoader_Loader-" ++ pyFormat pk.variant ++
    str "-" ++ pk.version ++ str ".zip"

/-- The archive's output location (line 193). -/
def archive_path (pk : Packager) : Path :=
  pk.thunderstore_dir ++ [output_name pk]

/-- The list of required files absent from the staging directory
(lines 180–183). -/
def missingOf (package_dir : Path) (fs : FS) : List PyStr :=
  REQUIRED_FILES.filter (fun r => !(pexists (package_dir ++ [r]) fs))

/-- `create_package` (lines 169–208): verify the three required files,
exiting with status 1 on any absence (leaving the state untouched);
otherwise write the archive holding every file below the staging directory
under its relative path, delete the staging directory, and return the
archive's path. -/
def create_package (pk : Packager) (package_dir : Path) (fs : FS) :
    FS × CPOut :=
  if (missingOf package_dir fs).isEmpty then
    (rmtree package_dir
       (writeFile (archive_path pk)
         (Content.zipData (walkFiles package_dir fs)) fs),
     CPOut.ok (archive_path pk))
  else
    (fs, CPOut.exited 1 (missingOf package_dir fs) package_dir)

/-- The top-level exception handlers of `main` (lines 366–373): both the
`FileNotFoundError` arm and the generic arm print and exit 1. -/
def mainCatch : PyErr → Nat
  | PyErr.fileNotFound _ => 1
  | PyErr.otherError => 1

/-- The parsed command-line arguments (lines 234–302); `variant` is a
`PyVal` because the source's default is the list `['IL2CPP-BepInEx6']`
while a supplied flag value is one of the choice strings. -/
structure Args where
  variant : PyVal
  version : PyStr
  name : PyStr
  namespace_ : PyStr
  description : PyStr
  website : PyStr
  deps : List PyStr
  icon : Option Path
  readme : Option Path
  output_dir : Path
  thunderstore_dir : Path

/-- The packager constructed by `main` (lines 319–324). -/
def mkPackager (a : Args) : Packager :=
  { output_dir := a.output_dir, thunderstore_dir := a.thunderstore_dir,
    variant := a.variant, version := a.version }

/-- The argparse defaults (lines 234–302): omitted flags yield these values;
note `variant`'s default is the one-element list object. -/
def defaultArgs : Args :=
  { variant := PyVal.list [str "IL2CPP-BepInEx6"],
    version := str "2.1.0",
    name := str "MelonLoader_Loader",
    namespace_ := str "BepInEx",
    description := str "BepInEx loader plugin for running MelonLoader mods. Supports both Unity Mono and IL2CPP games.",
    website := str "https://github.com/BepInEx/BepInEx.MelonLoader.Loader",
    deps := [str "BepInEx-BepInExPack_IL2CPP-6.0.733"],
    icon := none,
    readme := none,
    output_dir := [str "Output"],
    thunderstore_dir := [str "Thunderstore"] }

/-- The observable outcome of one run of `main`. -/
structure RunOut where
  fs : FS
  warns : List Warn
  exit : Nat
  archive : Option Path

/-- The manifest and warnings `main` builds (lines 327–333); the packager's
version is the version flag. -/
def main_manifest (a : Args) : Manifest × List Warn :=
  create_manifest a.version a.name a.description a.website a.deps a.namespace_

/-- `icon_path = args.icon if args.icon else Path('icon.png')` (line 336). -/
def main_icon_path (a : Args) : Option Path :=
  some (a.icon.getD [str "icon.png"])

/-- `readme_path = args.readme if args.readme else Path('README.md')`
(line 337). -/
def main_readme_path (a : Args) : Option Path :=
  some (a.readme.getD [str "README.md"])

/-- The tail of `main` after `create_package` returned (lines 356–364, and
the `SystemExit` path of line 189): report the archive on success. -/
def mainPack (w0 w1 : List Warn) : FS × CPOut → RunOut
  | (fs3, CPOut.exited c _ _) =>
    { fs := fs3, warns := w0 ++ w1, exit := c, archive := none }
  | (fs3, CPOut.ok ap) =>
    { fs := fs3, warns := w0 ++ w1, exit := 0, archive := some ap }

/-- The try/except body of `main` (lines 347–373) after `prepare_package`
returned or raised: a caught exception exits via the handlers, a prepared
staging directory is packaged. -/
def mainGo (a : Args) (w0 : List Warn) : FS × List Warn × Except PyErr Path → RunOut
  | (fs2, w1, Except.error e) =>
    { fs := fs2, warns := w0 ++ w1, exit := mainCatch e, archive := none }
  | (fs2, w1, Except.ok pdir) =>
    mainPack w0 w1 (create_package (mkPackager a) pdir fs2)

/-- `main` after argument parsing (lines 304–373): check the output
directory, create the thunderstore directory, build the manifest, default
the icon and README paths to `icon.png` / `README.md` in the working
directory, then prepare and package inside the try/except. -/
def main (pil : Bool) (a : Args) (fs0 : FS) : RunOut :=
  if pexists a.output_dir fs0 = false then
    { fs := fs0, warns := [], exit := 1, archive := none }
  else
    mainGo a (main_manifest a).2
      (prepare_package (mkPackager a) pil (main_manifest a).1
        (main_icon_path a) (main_readme_path a) (mkdir a.thunderstore_dir fs0))

/-! Concrete inputs used by the witnesses and counterexamples. -/

/-- A concrete packager with the variant supplied as an explicit string. -/
def pkW : Packager :=
  { output_dir := [str "Output"], thunderstore_dir := [str "Thunderstore"],
    variant := PyVal.s (str "IL2CPP-BepInEx6"), version := str "2.1.0" }

/-- A concrete manifest value. -/
def mW : Manifest :=
  { name := str "MelonLoader_Loader", version_number := str "2.1.0",
    website_url := str "https://example.org", description := str "d",
    dependencies := [] }

/-- The staging directory of `pkW`. -/
def dW : Path := temp_dir pkW

/-- A staging directory holding manifest and icon but no `README.md`. -/
def fsMissingReadme : FS :=
  { dirs := [dW],
    files := [(dW ++ [str "manifest.json"], Content.manifestFile mW),
              (dW ++ [str "icon.png"], Content.image 256 256 (str "PNG"))] }

/-- A complete staging directory: manifest, icon, readme plus two extracted
build files. -/
def fsComplete : FS :=
  { dirs := [dW],
    files := [(dW ++ [str "manifest.json"], Content.manifestFile mW),
              (dW ++ [str "icon.png"], Content.image 256 256 (str "PNG")),
              (dW ++ [str "README.md"], Content.blob 1),
              (dW ++ [str "a.dll"], Content.blob 2),
              (dW ++ [str "b.dll"], Content.blob 3)] }

/-- A filesystem holding a valid icon and an undersized icon. -/
def fsIcons : FS :=
  { dirs := [],
    files := [([str "good.png"], Content.image 256 256 (str "PNG")),
              ([str "small.png"], Content.image 100 100 (str "PNG"))] }

/-- The empty filesystem. -/
def fsEmpty : FS := { dirs := [], files := [] }

/-- A filesystem where only `pkW`'s staging directory exists. -/
def fs7 : FS := { dirs := [temp_dir pkW], files := [] }

/-- A filesystem holding the build artifact archive of `pkW`, whose entries
are two dll files. -/
def fs8 : FS :=
  { dirs := [temp_dir pkW],
    files := [(build_zip_path pkW,
               Content.zipData [([str "a.dll"], Content.blob 2),
                                ([str "b.dll"], Content.blob 3)])] }

/-- A full argument configuration with the namespace flag set to `Foo` and
the package name to `Bar_Loader`, everything needed for a successful run. -/
def argsFoo : Args :=
  { defaultArgs with
      variant := PyVal.s (str "IL2CPP-BepInEx6"),
      namespace_ := str "Foo",
      name := str "Bar_Loader" }

/-- A filesystem on which `argsFoo` runs to completion: output directory,
working-directory icon and readme, and the build artifact archive. -/
def fsFoo : FS :=
  { dirs := [[str "Output"]],
    files := [([str "icon.png"], Content.image 256 256 (str "PNG")),
              ([str "README.md"], Content.blob 1),
              ([str "Output", str "MLLoader-IL2CPP-BepInEx6-v2.1.0.zip"],
               Content.zipData [([str "a.dll"], Content.blob 2),
                                ([str "b.dll"], Content.blob 3)])] }

/-- The archive name the claimed template would give for `argsFoo`. -/
def fooTemplateArchive : Path :=
  [str "Thunderstore", str "Foo-Bar_Loader-IL2CPP-BepInEx6-2.1.0.zip"]

/-- The archive the code actually produces for `argsFoo`. -/
def bepArchive : Path :=
  [str "Thunderstore", str "BepInEx-MelonLoader_Loader-IL2CPP-BepInEx6-2.1.0.zip"]

/-- The build artifact path the spec intends for the default variant. -/
def intendedZipC9 : Path :=
  [str "Output", str "MLLoader-IL2CPP-BepInEx6-v2.1.0.zip"]

/-- A filesystem holding everything a default-flag run should need, with the
build artifact at the path the spec intends. -/
def fsC9 : FS :=
  { dirs := [[str "Output"]],
    files := [([str "icon.png"], Content.image 256 256 (str "PNG")),
              ([str "README.md"], Content.blob 1),
              (intendedZipC9,
               Content.zipData [([str "a.dll"], Content.blob 2),
                                ([str "b.dll"], Content.blob 3)])] }

/-- Sanity condition on the initial filesystem: either the staging directory
registers as existing, or nothing at all (file or directory) lies at or below
it.  On a real filesystem a file below a directory implies the directory
exists, so this always holds. -/
def noGhosts (d : Path) (fs : FS) : Prop :=
  pexists d fs = true ∨
    ∀ q r, stripDir d q = some r → readFile q fs = none ∧ dirMem q fs = false

/-! Basic lemmas about the filesystem primitives. -/

theorem lookupFile_removeFile (l : List (Path × Content)) (p q : Path) :
    lookupFile (removeFile l p) q = if q = p then none else lookupFile l q := by
  induction l with
  | nil => simp [removeFile, lookupFile]
  | cons f l ih =>
    by_cases h2 : q = p
    · subst h2
      by_cases h1 : f.1 = q <;> simp [removeFile, lookupFile, h1, ih]
    · by_cases h1 : f.1 = p
      · have h3 : ¬ f.1 = q := fun e => h2 ((e ▸ h1 : q = p))
        have h4 : ¬ p = q := fun e => h2 e.symm
        simp [removeFile, lookupFile, h1, h3, h4, ih, h2]
      · by_cases h3 : f.1 = q <;>
          simp [removeFile, lookupFile, h1, h3, ih, h2]

theorem readFile_writeFile (p : Path) (c : Content) (q : Path) (fs : FS) :
    readFile q (writeFile p c fs) = if q = p then some c else readFile q fs := by
  show lookupFile ((p, c) :: removeFile fs.files p) q = _
  rw [lookupFile, lookupFile_removeFile]
  by_cases h : q = p
  · simp [h]
  · rw [if_neg (fun e => h e.symm), if_neg h, if_neg h]; rfl

theorem dirMem_writeFile (p : Path) (c : Content) (q : Path) (fs : FS) :
    dirMem q (writeFile p c fs) = dirMem q fs := rfl

theorem readFile_mkdir (d q : Path) (fs : FS) :
    readFile q (mkdir d fs) = readFile q fs := rfl

theorem dirMem_mkdir (d q : Path) (fs : FS) :
    dirMem q (mkdir d fs) = if d = q then true else dirMem q fs := rfl

theorem lookupFile_dropUnderF (l : List (Path × Content)) (d q : Path) :
    lookupFile (dropUnderF l d) q
      = if (stripDir d q).isSome then none else lookupFile l q := by
  induction l with
  | nil => simp [dropUnderF, lookupFile]
  | cons f l ih =>
    by_cases h1 : (stripDir d f.1).isSome
    · by_cases h2 : (stripDir d q).isSome
      · simp [dropUnderF, h1, ih, h2]
      · have h3 : ¬ f.1 = q := fun e => h2 ((e ▸ h1 : (stripDir d q).isSome))
        simp [dropUnderF, h1, ih, h2, lookupFile, h3]
    · by_cases h3 : f.1 = q
      · have h2 : ¬ (stripDir d q).isSome :=
          fun hs => h1 ((h3.symm ▸ hs : (stripDir d f.1).isSome))
        simp [dropUnderF, h1, lookupFile, h3, h2]
      · by_cases h2 : (stripDir d q).isSome <;>
          simp [dropUnderF, h1, ih, h2, lookupFile, h3]

theorem memPath_dropUnderD (l : List Path) (d q : Path) :
    memPath (dropUnderD l d) q
      = if (stripDir d q).isSome then false else memPath l q := by
  induction l with
  | nil => simp [dropUnderD, memPath]
  | cons x l ih =>
    by_cases h1 : (stripDir d x).isSome
    · by_cases h2 : (stripDir d q).isSome
      · simp [dropUnderD, h1, ih, h2]
      · have h3 : ¬ x = q := fun e => h2 ((e ▸ h1 : (stripDir d q).isSome))
        simp [dropUnderD, h1, ih, h2, memPath, h3]
    · by_cases h3 : x = q
      · have h2 : ¬ (stripDir d q).isSome :=
          fun hs => h1 ((h3.symm ▸ hs : (stripDir d x).isSome))
        simp [dropUnderD, h1, memPath, h3, h2]
      · by_cases h2 : (stripDir d q).isSome <;>
          simp [dropUnderD, h1, ih, h2, memPath, h3]

theorem readFile_rmtree (d q : Path) (fs : FS) :
    readFile q (rmtree d fs)
      = if (stripDir d q).isSome then none else readFile q fs :=
  lookupFile_dropUnderF fs.files d q

theorem dirMem_rmtree (d q : Path) (fs : FS) :
    dirMem q (rmtree d fs)
      = if (stripDir d q).isSome then false else dirMem q fs :=
  memPath_dropUnderD fs.dirs d q

theorem stripDir_append (d r : Path) : stripDir d (d ++ r) = some r := by
  induction d with
  | nil => rfl
  | cons a d ih => simp [stripDir, ih]

theorem stripDir_self (d : Path) : stripDir d d = some [] := by
  simpa using stripDir_append d []

theorem stripDir_eq_some {d p r : Path} : stripDir d p = some r ↔ p = d ++ r := by
  induction d generalizing p with
  | nil => simp [stripDir]
  | cons a d ih =>
    cases p with
    | nil => simp [stripDir]
    | cons b p =>
      by_cases hab : a = b
      · subst hab
        rw [stripDir, if_pos rfl, List.cons_append]
        simp [ih]
      · rw [stripDir, if_neg hab, List.cons_append]
        constructor
        · intro h; exact absurd h (by simp)
        · intro h
          exact absurd (List.head_eq_of_cons_eq h).symm hab

theorem extractAll_cons (dst : Path) (e : Path × Content)
    (es : List (Path × Content)) (fs : FS) :
    extractAll dst (e :: es) fs
      = extractAll dst es (writeFile (dst ++ e.1) e.2 fs) := rfl

theorem extractAll_dirs (dst : Path) (es : List (Path × Content)) (fs : FS) :
    (extractAll dst es fs).dirs = fs.dirs := by
  induction es generalizing fs with
  | nil => rfl
  | cons e es ih => rw [extractAll_cons, ih]; rfl

theorem readFile_extractAll_off (dst : Path) (es : List (Path × Content))
    (fs : FS) (q : Path) (h : ∀ e ∈ es, ¬ dst ++ e.1 = q) :
    readFile q (extractAll dst es fs) = readFile q fs := by
  induction es generalizing fs with
  | nil => rfl
  | cons e es ih =>
    rw [extractAll_cons, ih _ (fun e' he' => h e' (List.mem_cons_of_mem _ he')),
      readFile_writeFile,
      if_neg (fun hq => h e (List.mem_cons_self _ _) hq.symm)]

theorem dirMem_extractAll (dst : Path) (es : List (Path × Content))
    (fs : FS) (q : Path) :
    dirMem q (extractAll dst es fs) = dirMem q fs := by
  induction es generalizing fs with
  | nil => rfl
  | cons e es ih => rw [extractAll_cons, ih]; rfl

theorem relFiles_cons_none (f : Path × Content) (l : List (Path × Content))
    (d : Path) (hs : stripDir d f.1 = none) :
    relFiles (f :: l) d = relFiles l d := by
  rw [relFiles, hs]

theorem relFiles_cons_some (f : Path × Content) (l : List (Path × Content))
    (d r : Path) (hs : stripDir d f.1 = some r) :
    relFiles (f :: l) d
      = if r.isEmpty then relFiles l d else (r, f.2) :: relFiles l d := by
  rw [relFiles, hs]

theorem relFiles_mem (l : List (Path × Content)) (d : Path)
    (rel : Path) (c : Content) :
    (rel, c) ∈ relFiles l d ↔ (rel ≠ [] ∧ (d ++ rel, c) ∈ l) := by
  induction l with
  | nil => simp [relFiles]
  | cons f l ih =>
    cases hs : stripDir d f.1 with
    | none =>
      rw [relFiles_cons_none f l d hs, ih]
      simp only [List.mem_cons]
      constructor
      · exact fun ⟨hne, hm⟩ => ⟨hne, Or.inr hm⟩
      · rintro ⟨hne, hf | hm⟩
        · exfalso
          have h1 : f.1 = d ++ rel := congrArg Prod.fst hf.symm
          rw [h1, stripDir_append] at hs
          exact Option.noConfusion hs
        · exact ⟨hne, hm⟩
    | some r =>
      have hf1 : f.1 = d ++ r := stripDir_eq_some.mp hs
      rw [relFiles_cons_some f l d r hs]
      by_cases hr : r.isEmpty
      · rw [if_pos hr, ih]
        simp only [List.mem_cons]
        constructor
        · exact fun ⟨hne, hm⟩ => ⟨hne, Or.inr hm⟩
        · rintro ⟨hne, hf | hm⟩
          · exfalso
            have h1 : d ++ rel = f.1 := congrArg Prod.fst hf
            rw [hf1] at h1
            have h2 : rel = r := List.append_cancel_left h1
            rw [List.isEmpty_iff] at hr
            exact hne (h2.trans hr)
          · exact ⟨hne, hm⟩
      · rw [if_neg hr]
        simp only [List.mem_cons, ih, Prod.mk.injEq]
        constructor
        · rintro (⟨h1, h2⟩ | ⟨hne, hm⟩)
          · subst h1; subst h2
            refine ⟨fun he => hr (by simp [he]), Or.inl ?_⟩
            rw [← hf1]
          · exact ⟨hne, Or.inr hm⟩
        · rintro ⟨hne, hf | hm⟩
          · left
            have h1 : d ++ rel = f.1 := congrArg Prod.fst hf
            rw [hf1] at h1
            have h2 : rel = r := List.append_cancel_left h1
            subst h2
            exact ⟨rfl, congrArg Prod.snd hf⟩
          · right; exact ⟨hne, hm⟩

/-! Characterization lemmas for the packaging steps. -/

theorem copy2_ok {src dst : Path} {fs g : FS}
    (h : copy2 src dst fs = Except.ok g) :
    ∃ c, readFile src fs = some c ∧ g = writeFile dst c fs := by
  unfold copy2 at h
  cases hc : readFile src fs with
  | none => rw [hc] at h; exact Except.noConfusion h
  | some c =>
    rw [hc] at h
    injection h with hg
    exact ⟨c, rfl, hg.symm⟩

theorem copy2_error {src dst : Path} {fs : FS} {e : PyErr}
    (h : copy2 src dst fs = Except.error e) : e = PyErr.otherError := by
  unfold copy2 at h
  cases hc : readFile src fs with
  | none => rw [hc] at h; injection h with he; exact he.symm
  | some c => rw [hc] at h; exact Except.noConfusion h

theorem iconPhase_dirs (pk : Packager) (pil : Bool) (i : Option Path)
    (fs : FS) : (iconPhase pk pil i fs).1.dirs = fs.dirs := by
  cases i with
  | none => rfl
  | some ip =>
    simp only [iconPhase]
    by_cases hb : pexists ip fs = true
    · rw [if_pos hb]
      cases hc : copy2 ip (temp_dir pk ++ [str "icon.png"]) fs with
      | ok g =>
        obtain ⟨c, _, hg⟩ := copy2_ok hc
        show g.dirs = fs.dirs
        rw [hg]
        rfl
      | error e => rfl
    · rw [if_neg hb]

theorem iconPhase_off (pk : Packager) (pil : Bool) (i : Option Path)
    (fs : FS) (q : Path) (hne : ¬ q = temp_dir pk ++ [str "icon.png"]) :
    readFile q (iconPhase pk pil i fs).1 = readFile q fs := by
  cases i with
  | none => rfl
  | some ip =>
    simp only [iconPhase]
    by_cases hb : pexists ip fs = true
    · rw [if_pos hb]
      cases hc : copy2 ip (temp_dir pk ++ [str "icon.png"]) fs with
      | ok g =>
        obtain ⟨c, _, hg⟩ := copy2_ok hc
        show readFile q g = readFile q fs
        rw [hg, readFile_writeFile, if_neg hne]
      | error e => rfl
    · rw [if_neg hb]

theorem iconPhase_err (pk : Packager) (pil : Bool) (i : Option Path)
    (fs : FS) {g : FS} {w : List Warn} {e : PyErr}
    (h : iconPhase pk pil i fs = (g, w, some e)) : e = PyErr.otherError := by
  cases i with
  | none => simp [iconPhase] at h
  | some ip =>
    simp only [iconPhase] at h
    by_cases hb : pexists ip fs = true
    · rw [if_pos hb] at h
      cases hc : copy2 ip (temp_dir pk ++ [str "icon.png"]) fs with
      | ok g' => rw [hc] at h; simp at h
      | error e' =>
        rw [hc] at h
        have he : e' = e := by
          have := congrArg (fun o => o.2.2) h
          simpa using this
        exact he ▸ copy2_error hc
    · rw [if_neg hb] at h; simp at h

theorem readmePhase_dirs (pk : Packager) (r : Option Path)
    (fs : FS) : (readmePhase pk r fs).1.dirs = fs.dirs := by
  cases r with
  | none => rfl
  | some rp =>
    simp only [readmePhase]
    by_cases hb : pexists rp fs = true
    · rw [if_pos hb]
      cases hc : copy2 rp (temp_dir pk ++ [str "README.md"]) fs with
      | ok g =>
        obtain ⟨c, _, hg⟩ := copy2_ok hc
        show g.dirs = fs.dirs
        rw [hg]
        rfl
      | error e => rfl
    · rw [if_neg hb]

theorem readmePhase_off (pk : Packager) (r : Option Path)
    (fs : FS) (q : Path) (hne : ¬ q = temp_dir pk ++ [str "README.md"]) :
    readFile q (readmePhase pk r fs).1 = readFile q fs := by
  cases r with
  | none => rfl
  | some rp =>
    simp only [readmePhase]
    by_cases hb : pexists rp fs = true
    · rw [if_pos hb]
      cases hc : copy2 rp (temp_dir pk ++ [str "README.md"]) fs with
      | ok g =>
        obtain ⟨c, _, hg⟩ := copy2_ok hc
        show readFile q g = readFile q fs
        rw [hg, readFile_writeFile, if_neg hne]
      | error e => rfl
    · rw [if_neg hb]

theorem readmePhase_err (pk : Packager) (r : Option Path)
    (fs : FS) {g : FS} {w : List Warn} {e : PyErr}
    (h : readmePhase pk r fs = (g, w, some e)) : e = PyErr.otherError := by
  cases r with
  | none => simp [readmePhase] at h
  | some rp =>
    simp only [readmePhase] at h
    by_cases hb : pexists rp fs = true
    · rw [if_pos hb] at h
      cases hc : copy2 rp (temp_dir pk ++ [str "README.md"]) fs with
      | ok g' => rw [hc] at h; simp at h
      | error e' =>
        rw [hc] at h
        have he : e' = e := by
          have := congrArg (fun o => o.2.2) h
          simpa using this
        exact he ▸ copy2_error hc
    · rw [if_neg hb] at h; simp at h

theorem zipPhase_dirs (pk : Packager) (fs : FS) :
    (zipPhase pk fs).1.dirs = fs.dirs := by
  unfold zipPhase
  by_cases hb : pexists (build_zip_path pk) fs = true
  · rw [if_pos hb]
    cases hc : readFile (build_zip_path pk) fs with
    | none => rfl
    | some c =>
      cases c with
      | zipData es => exact extractAll_dirs _ _ _
      | manifestFile m => rfl
      | image w h f => rfl
      | blob n => rfl
  · rw [if_neg hb]

theorem zipPhase_off (pk : Packager) (fs : FS) (q : Path)
    (hq : stripDir (temp_dir pk) q = none) :
    readFile q (zipPhase pk fs).1 = readFile q fs := by
  unfold zipPhase
  by_cases hb : pexists (build_zip_path pk) fs = true
  · rw [if_pos hb]
    cases hc : readFile (build_zip_path pk) fs with
    | none => rfl
    | some c =>
      cases c with
      | zipData es =>
        refine readFile_extractAll_off _ _ _ _ (fun e _ he => ?_)
        rw [← he, stripDir_append] at hq
        exact Option.noConfusion hq
      | manifestFile m => rfl
      | image w h f => rfl
      | blob n => rfl
  · rw [if_neg hb]

/-! Extensional equivalence of filesystem states and congruence of the
staging pipeline under it. -/

/-- Two filesystem states are extensionally equal when every path carries
the same file content and the same directory-existence bit. -/
def FSeq (fs fs' : FS) : Prop :=
  (∀ p, readFile p fs = readFile p fs') ∧ (∀ p, dirMem p fs = dirMem p fs')

theorem FSeq_refl (fs : FS) : FSeq fs fs := ⟨fun _ => rfl, fun _ => rfl⟩

theorem pexists_congr {fs fs' : FS} (h : FSeq fs fs') (p : Path) :
    pexists p fs = pexists p fs' := by
  unfold pexists; rw [h.1 p, h.2 p]

theorem writeFile_congr {fs fs' : FS} (h : FSeq fs fs') (p : Path)
    (c : Content) : FSeq (writeFile p c fs) (writeFile p c fs') := by
  constructor
  · intro q; rw [readFile_writeFile, readFile_writeFile, h.1 q]
  · intro q; rw [dirMem_writeFile, dirMem_writeFile, h.2 q]

theorem validate_icon_congr {fs fs' : FS} (h : FSeq fs fs') (pil : Bool)
    (p : Path) : validate_icon pil p fs = validate_icon pil p fs' := by
  unfold validate_icon
  rw [pexists_congr h, h.1 p]

theorem extractAll_congr {fs fs' : FS} (h : FSeq fs fs') (dst : Path)
    (es : List (Path × Content)) :
    FSeq (extractAll dst es fs) (extractAll dst es fs') := by
  induction es generalizing fs fs' with
  | nil => exact h
  | cons e es ih =>
    rw [extractAll_cons, extractAll_cons]
    exact ih (writeFile_congr h _ _)

theorem copy2_congr {fs fs' : FS} (h : FSeq fs fs') (src dst : Path) :
    (copy2 src dst fs = Except.error PyErr.otherError ∧
      copy2 src dst fs' = Except.error PyErr.otherError) ∨
    (∃ g g', copy2 src dst fs = Except.ok g ∧ copy2 src dst fs' = Except.ok g'
      ∧ FSeq g g') := by
  cases hc : readFile src fs with
  | none =>
    left
    have hc' : readFile src fs' = none := (h.1 src).symm.trans hc
    constructor
    · unfold copy2; rw [hc]
    · unfold copy2; rw [hc']
  | some c =>
    right
    have hc' : readFile src fs' = some c := (h.1 src).symm.trans hc
    exact ⟨_, _, by unfold copy2; rw [hc], by unfold copy2; rw [hc'],
      writeFile_congr h dst c⟩

theorem iconWarns_congr {fs fs' : FS} (h : FSeq fs fs') (pil : Bool)
    (ip : Path) : iconWarns pil ip fs = iconWarns pil ip fs' := by
  unfold iconWarns
  rw [validate_icon_congr h pil ip]

theorem iconPhase_congr {fs fs' : FS} (h : FSeq fs fs') (pk : Packager)
    (pil : Bool) (i : Option Path) :
    (iconPhase pk pil i fs).2 = (iconPhase pk pil i fs').2 ∧
      FSeq (iconPhase pk pil i fs).1 (iconPhase pk pil i fs').1 := by
  cases i with
  | none => exact ⟨rfl, h⟩
  | some ip =>
    simp only [iconPhase]
    have hex := pexists_congr h ip
    by_cases hb : pexists ip fs = true
    · rw [if_pos hb, if_pos (hex ▸ hb)]
      have hv : iconWarns pil ip fs = iconWarns pil ip fs' :=
        iconWarns_congr h pil ip
      rcases copy2_congr h ip (temp_dir pk ++ [str "icon.png"]) with
        ⟨he, he'⟩ | ⟨g, g', hg, hg', hgg⟩
      · rw [he, he', hv]; exact ⟨rfl, h⟩
      · rw [hg, hg', hv]; exact ⟨rfl, hgg⟩
    · rw [if_neg hb, if_neg (fun hx => hb (hex ▸ hx))]
      exact ⟨rfl, h⟩

theorem readmePhase_congr {fs fs' : FS} (h : FSeq fs fs') (pk : Packager)
    (r : Option Path) :
    (readmePhase pk r fs).2 = (readmePhase pk r fs').2 ∧
      FSeq (readmePhase pk r fs).1 (readmePhase pk r fs').1 := by
  cases r with
  | none => exact ⟨rfl, h⟩
  | some rp =>
    simp only [readmePhase]
    have hex := pexists_congr h rp
    by_cases hb : pexists rp fs = true
    · rw [if_pos hb, if_pos (hex ▸ hb)]
      rcases copy2_congr h rp (temp_dir pk ++ [str "README.md"]) with
        ⟨he, he'⟩ | ⟨g, g', hg, hg', hgg⟩
      · rw [he, he']; exact ⟨rfl, h⟩
      · rw [hg, hg']; exact ⟨rfl, hgg⟩
    · rw [if_neg hb, if_neg (fun hx => hb (hex ▸ hx))]
      exact ⟨rfl, h⟩

theorem zipPhase_congr {fs fs' : FS} (h : FSeq fs fs') (pk : Packager) :
    (zipPhase pk fs).2 = (zipPhase pk fs').2 ∧
      FSeq (zipPhase pk fs).1 (zipPhase pk fs').1 := by
  unfold zipPhase
  have hex := pexists_congr h (build_zip_path pk)
  by_cases hb : pexists (build_zip_path pk) fs = true
  · rw [if_pos hb, if_pos (hex ▸ hb)]
    cases hc : readFile (build_zip_path pk) fs with
    | none =>
      have hc' : readFile (build_zip_path pk) fs' = none :=
        (h.1 _).symm.trans hc
      rw [hc']
      exact ⟨rfl, h⟩
    | some c =>
      have hc' : readFile (build_zip_path pk) fs' = some c :=
        (h.1 _).symm.trans hc
      rw [hc']
      cases c with
      | zipData es => exact ⟨rfl, extractAll_congr h _ es⟩
      | manifestFile m => exact ⟨rfl, h⟩
      | image w hh f => exact ⟨rfl, h⟩
      | blob n => exact ⟨rfl, h⟩
  · rw [if_neg hb, if_neg (fun hx => hb (hex ▸ hx))]
    exact ⟨rfl, h⟩

theorem stagePost_icon_err (pk : Packager) (pil : Bool) (m : Manifest)
    (i r : Option Path) (fs2 : FS) {g : FS} {w : List Warn} {e : PyErr}
    (h : iconPhase pk pil i (manifestWrite pk m fs2) = (g, w, some e)) :
    stagePost pk pil m i r fs2 = (g, w, Except.error e) := by
  unfold stagePost
  rw [h]
  rfl

theorem stagePost_readme_err (pk : Packager) (pil : Bool) (m : Manifest)
    (i r : Option Path) (fs2 : FS) {g g2 : FS} {w w2 : List Warn} {e : PyErr}
    (h : iconPhase pk pil i (manifestWrite pk m fs2) = (g, w, none))
    (h2 : readmePhase pk r g = (g2, w2, some e)) :
    stagePost pk pil m i r fs2 = (g2, w ++ w2, Except.error e) := by
  unfold stagePost
  rw [h]
  show readmeWrap pk r w (readmePhase pk r g) = _
  rw [h2]
  rfl

theorem stagePost_zip (pk : Packager) (pil : Bool) (m : Manifest)
    (i r : Option Path) (fs2 : FS) {g g2 g3 : FS} {w w2 : List Warn}
    {z : Except PyErr Path}
    (h : iconPhase pk pil i (manifestWrite pk m fs2) = (g, w, none))
    (h2 : readmePhase pk r g = (g2, w2, none))
    (h3 : zipPhase pk g2 = (g3, z)) :
    stagePost pk pil m i r fs2 = (g3, w ++ w2, z) := by
  unfold stagePost
  rw [h]
  show readmeWrap pk r w (readmePhase pk r g) = _
  rw [h2]
  show zipWrap (zipPhase pk g2) (w ++ w2) = _
  rw [h3]
  rfl

theorem stagePost_congr {fs fs' : FS} (h : FSeq fs fs') (pk : Packager)
    (pil : Bool) (m : Manifest) (i r : Option Path) :
    (stagePost pk pil m i r fs).2 = (stagePost pk pil m i r fs').2 ∧
      FSeq (stagePost pk pil m i r fs).1 (stagePost pk pil m i r fs').1 := by
  have h3 : FSeq (manifestWrite pk m fs) (manifestWrite pk m fs') :=
    writeFile_congr h (temp_dir pk ++ [str "manifest.json"])
      (Content.manifestFile m)
  obtain ⟨hi2, hi1⟩ := iconPhase_congr h3 pk pil i
  rcases hA : iconPhase pk pil i (manifestWrite pk m fs) with ⟨af, aw, ae⟩
  rcases hB : iconPhase pk pil i (manifestWrite pk m fs') with ⟨bf, bw, be⟩
  rw [hA, hB] at hi2 hi1
  obtain ⟨hw, he⟩ := Prod.mk.injEq .. ▸ hi2
  subst hw; subst he
  cases ae with
  | some e =>
    rw [stagePost_icon_err pk pil m i r fs hA,
      stagePost_icon_err pk pil m i r fs' hB]
    exact ⟨rfl, hi1⟩
  | none =>
    obtain ⟨hr2, hr1⟩ := readmePhase_congr hi1 pk r
    rcases hC : readmePhase pk r af with ⟨cf, cw, ce⟩
    rcases hD : readmePhase pk r bf with ⟨df, dw, de⟩
    rw [hC, hD] at hr2 hr1
    obtain ⟨hw2, he2⟩ := Prod.mk.injEq .. ▸ hr2
    subst hw2; subst he2
    cases ce with
    | some e =>
      rw [stagePost_readme_err pk pil m i r fs hA hC,
        stagePost_readme_err pk pil m i r fs' hB hD]
      exact ⟨rfl, hr1⟩
    | none =>
      obtain ⟨hz2, hz1⟩ := zipPhase_congr hr1 pk
      rcases hE : zipPhase pk cf with ⟨ef, ee⟩
      rcases hF : zipPhase pk df with ⟨ff, fe⟩
      rw [hE, hF] at hz2 hz1
      subst hz2
      rw [stagePost_zip pk pil m i r fs hA hC hE,
        stagePost_zip pk pil m i r fs' hB hD hF]
      exact ⟨rfl, hz1⟩

theorem stagePost_dirs (pk : Packager) (pil : Bool) (m : Manifest)
    (i r : Option Path) (fs2 : FS) :
    (stagePost pk pil m i r fs2).1.dirs = fs2.dirs := by
  unfold stagePost
  rcases hA : iconPhase pk pil i (manifestWrite pk m fs2) with ⟨af, aw, ae⟩
  have had : af.dirs = fs2.dirs := by
    have h := iconPhase_dirs pk pil i (manifestWrite pk m fs2)
    rw [hA] at h
    exact h
  cases ae with
  | some e => exact had
  | none =>
    show (readmeWrap pk r aw (readmePhase pk r af)).1.dirs = fs2.dirs
    rcases hC : readmePhase pk r af with ⟨cf, cw, ce⟩
    have hcd : cf.dirs = af.dirs := by
      have h := readmePhase_dirs pk r af
      rw [hC] at h
      exact h
    cases ce with
    | some e => exact hcd.trans had
    | none =>
      show (zipWrap (zipPhase pk cf) (aw ++ cw)).1.dirs = fs2.dirs
      rcases hE : zipPhase pk cf with ⟨ef, ez⟩
      have hed : ef.dirs = cf.dirs := by
        have h := zipPhase_dirs pk cf
        rw [hE] at h
        exact h
      exact hed.trans (hcd.trans had)

theorem stagePost_dirMem (pk : Packager) (pil : Bool) (m : Manifest)
    (i r : Option Path) (fs2 : FS) (q : Path) :
    dirMem q (stagePost pk pil m i r fs2).1 = dirMem q fs2 := by
  unfold dirMem
  rw [stagePost_dirs]

theorem stagePost_off (pk : Packager) (pil : Bool) (m : Manifest)
    (i r : Option Path) (fs2 : FS) (q : Path)
    (hq : stripDir (temp_dir pk) q = none) :
    readFile q (stagePost pk pil m i r fs2).1 = readFile q fs2 := by
  have hqm : ¬ q = temp_dir pk ++ [str "manifest.json"] := fun e => by
    rw [e, stripDir_append] at hq
    exact Option.noConfusion hq
  have hqi : ¬ q = temp_dir pk ++ [str "icon.png"] := fun e => by
    rw [e, stripDir_append] at hq
    exact Option.noConfusion hq
  have hqr : ¬ q = temp_dir pk ++ [str "README.md"] := fun e => by
    rw [e, stripDir_append] at hq
    exact Option.noConfusion hq
  unfold stagePost
  rcases hA : iconPhase pk pil i (manifestWrite pk m fs2) with ⟨af, aw, ae⟩
  have hra : readFile q af = readFile q fs2 := by
    have h := iconPhase_off pk pil i (manifestWrite pk m fs2) q hqi
    rw [hA] at h
    rw [show readFile q af = readFile q (manifestWrite pk m fs2) from h]
    show readFile q (writeFile (temp_dir pk ++ [str "manifest.json"])
      (Content.manifestFile m) fs2) = readFile q fs2
    rw [readFile_writeFile, if_neg hqm]
  cases ae with
  | some e => exact hra
  | none =>
    show readFile q (readmeWrap pk r aw (readmePhase pk r af)).1 = readFile q fs2
    rcases hC : readmePhase pk r af with ⟨cf, cw, ce⟩
    have hrc : readFile q cf = readFile q af := by
      have h := readmePhase_off pk r af q hqr
      rw [hC] at h
      exact h
    cases ce with
    | some e => exact hrc.trans hra
    | none =>
      show readFile q (zipWrap (zipPhase pk cf) (aw ++ cw)).1 = readFile q fs2
      rcases hE : zipPhase pk cf with ⟨ef, ez⟩
      have hre : readFile q ef = readFile q cf := by
        have h := zipPhase_off pk cf q hq
        rw [hE] at h
        exact h
      exact hre.trans (hrc.trans hra)

theorem resetTemp_off (pk : Packager) (fs : FS) (q : Path)
    (hq : stripDir (temp_dir pk) q = none) :
    readFile q (resetTemp pk fs) = readFile q fs ∧
      dirMem q (resetTemp pk fs) = dirMem q fs := by
  have hne : ¬ temp_dir pk = q := fun e => by
    rw [← e, stripDir_self] at hq
    exact Option.noConfusion hq
  unfold resetTemp
  by_cases hb : pexists (temp_dir pk) fs = true
  · rw [if_pos hb]
    constructor
    · show readFile q (rmtree (temp_dir pk) fs) = readFile q fs
      rw [readFile_rmtree, hq]
      rfl
    · rw [dirMem_mkdir, if_neg hne, dirMem_rmtree, hq]
      rfl
  · rw [if_neg hb]
    exact ⟨rfl, by rw [dirMem_mkdir, if_neg hne]⟩

theorem resetTemp_wipes (pk : Packager) (fs : FS)
    (hng : noGhosts (temp_dir pk) fs) (q r' : Path)
    (hq : stripDir (temp_dir pk) q = some r') :
    readFile q (resetTemp pk fs) = none ∧
      dirMem q (resetTemp pk fs)
        = (if temp_dir pk = q then true else false) := by
  unfold resetTemp
  have hpos : pexists (temp_dir pk) fs = true →
      readFile q (mkdir (temp_dir pk) (rmtree (temp_dir pk) fs)) = none ∧
        dirMem q (mkdir (temp_dir pk) (rmtree (temp_dir pk) fs))
          = (if temp_dir pk = q then true else false) := by
    intro _
    constructor
    · show readFile q (rmtree (temp_dir pk) fs) = none
      rw [readFile_rmtree, hq]
      rfl
    · rw [dirMem_mkdir, dirMem_rmtree, hq]
      rfl
  rcases hng with hb | hg
  · rw [if_pos hb]
    exact hpos hb
  · by_cases hb : pexists (temp_dir pk) fs = true
    · rw [if_pos hb]
      exact hpos hb
    · rw [if_neg hb]
      constructor
      · exact (hg q r' hq).1
      · rw [dirMem_mkdir, (hg q r' hq).2]

theorem resetTemp_FSeq (pk : Packager) {fs fs' : FS}
    (hng : noGhosts (temp_dir pk) fs) (hng' : noGhosts (temp_dir pk) fs')
    (hoff : ∀ q, stripDir (temp_dir pk) q = none →
      readFile q fs = readFile q fs' ∧ dirMem q fs = dirMem q fs') :
    FSeq (resetTemp pk fs) (resetTemp pk fs') := by
  constructor
  · intro q
    cases hq : stripDir (temp_dir pk) q with
    | none =>
      rw [(resetTemp_off pk fs q hq).1, (resetTemp_off pk fs' q hq).1]
      exact (hoff q hq).1
    | some r =>
      rw [(resetTemp_wipes pk fs hng q r hq).1,
        (resetTemp_wipes pk fs' hng' q r hq).1]
  · intro q
    cases hq : stripDir (temp_dir pk) q with
    | none =>
      rw [(resetTemp_off pk fs q hq).2, (resetTemp_off pk fs' q hq).2]
      exact (hoff q hq).2
    | some r =>
      rw [(resetTemp_wipes pk fs hng q r hq).2,
        (resetTemp_wipes pk fs' hng' q r hq).2]

/-! The claims. -/

/-- Claim C3: for every description passed to `create_manifest`, a
description longer than 250 characters is stored as its first 247 characters
followed by the three-character ellipsis (total length exactly 250), with a
warning emitted and no error, while a description of at most 250 characters
is stored unchanged with no warning. -/
theorem create_manifest_description (v nm d wu : PyStr) (deps : List PyStr)
    (ns : PyStr) :
    (250 < d.length →
      ((create_manifest v nm d wu deps ns).1.description.length = 250 ∧
        (create_manifest v nm d wu deps ns).1.description
          = d.take 247 ++ str "..." ∧
        (create_manifest v nm d wu deps ns).2 = [Warn.descriptionTruncated])) ∧
    (d.length ≤ 250 →
      ((create_manifest v nm d wu deps ns).1.description = d ∧
        (create_manifest v nm d wu deps ns).2 = [])) := by
  constructor
  · intro h
    unfold create_manifest
    rw [if_pos h]
    refine ⟨?_, rfl, rfl⟩
    show (d.take 247 ++ str "...").length = 250
    rw [List.length_append, List.length_take,
      Nat.min_eq_left (by omega : 247 ≤ d.length)]
    decide
  · intro h
    unfold create_manifest
    rw [if_neg (by omega)]
    exact ⟨rfl, rfl⟩

theorem create_manifest_description_witness :
    ((create_manifest (str "2.1.0") (str "n") (List.replicate 251 'a')
        (str "w") [] (str "BepInEx")).1.description.length = 250 ∧
      (create_manifest (str "2.1.0") (str "n") (List.replicate 251 'a')
        (str "w") [] (str "BepInEx")).2 = [Warn.descriptionTruncated]) ∧
    (create_manifest (str "2.1.0") (str "n") (str "short") (str "w") []
      (str "BepInEx")).1.description = str "short" :=
  ⟨⟨((create_manifest_description (str "2.1.0") (str "n")
        (List.replicate 251 'a') (str "w") [] (str "BepInEx")).1
      (by decide)).1,
    ((create_manifest_description (str "2.1.0") (str "n")
        (List.replicate 251 'a') (str "w") [] (str "BepInEx")).1
      (by decide)).2.2⟩,
   ((create_manifest_description (str "2.1.0") (str "n") (str "short")
        (str "w") [] (str "BepInEx")).2 (by decide)).1⟩

/-- Claim C10: `create_manifest` ignores its namespace parameter entirely:
two calls differing only in the namespace return identical results (the
record holds exactly the name, version_number, website_url, description and
dependencies fields, none derived from the namespace). -/
theorem create_manifest_namespace_independent (v nm d wu : PyStr)
    (deps : List PyStr) (ns1 ns2 : PyStr) :
    create_manifest v nm d wu deps ns1 = create_manifest v nm d wu deps ns2 :=
  rfl

/-- Claim C4: `validate_icon` returns false for every nonexistent path; for
an existing path holding an image it returns true exactly when the image is
256×256 and PNG-encoded (false otherwise); and when PIL is unavailable it
returns true with a warning rather than failing. -/
theorem validate_icon_cases (pil : Bool) (p : Path) (fs : FS) (w h : Nat)
    (f : PyStr) :
    (pexists p fs = false → (validate_icon pil p fs).1 = false) ∧
    (pexists p fs = true → pil = false →
      validate_icon pil p fs = (true, [Warn.pilMissing])) ∧
    (pexists p fs = true → readFile p fs = some (Content.image w h f) →
      ((validate_icon true p fs).1 = true ↔
        ((w, h) = ICON_SIZE ∧ f = str "PNG"))) := by
  have hcond : pexists p fs = true → ¬ (pexists p fs = false) :=
    fun he hc => by rw [he] at hc; exact Bool.noConfusion hc
  refine ⟨?_, ?_, ?_⟩
  · intro hne
    unfold validate_icon
    rw [if_pos hne]
  · intro hex hpil
    subst hpil
    unfold validate_icon
    rw [if_neg (hcond hex)]
    rfl
  · intro hex hread
    unfold validate_icon
    rw [if_neg (hcond hex), if_pos rfl, hread]
    show ((if (w, h) ≠ ICON_SIZE then (false, [Warn.iconBadSize w h])
      else if f ≠ str "PNG" then (false, [Warn.iconBadFormat f])
      else (true, [])).1 = true) ↔ ((w, h) = ICON_SIZE ∧ f = str "PNG")
    by_cases h1 : (w, h) = ICON_SIZE
    · rw [if_neg (not_not_intro h1)]
      by_cases h2 : f = str "PNG"
      · rw [if_neg (not_not_intro h2)]
        simp [h1, h2]
      · rw [if_pos h2]
        simp [h2]
    · rw [if_pos h1]
      simp [h1]

theorem validate_icon_cases_witness :
    (validate_icon true [str "nope.png"] fsIcons).1 = false ∧
    validate_icon false [str "good.png"] fsIcons = (true, [Warn.pilMissing]) ∧
    (validate_icon true [str "good.png"] fsIcons).1 = true ∧
    (validate_icon true [str "small.png"] fsIcons).1 = false :=
  ⟨(validate_icon_cases true [str "nope.png"] fsIcons 0 0 []).1 (by decide),
   (validate_icon_cases false [str "good.png"] fsIcons 0 0 []).2.1
     (by decide) rfl,
   ((validate_icon_cases true [str "good.png"] fsIcons 256 256
       (str "PNG")).2.2 (by decide) (by rfl)).mpr ⟨rfl, rfl⟩,
   by rfl⟩

/-- Claim C1: when at least one required file is missing from the staging
directory, `create_package` exits with status 1 reporting exactly the
missing names together with the staging path, and returns the filesystem
unchanged — the staging directory is not deleted on this failure path. -/
theorem create_package_missing (pk : Packager) (d : Path) (fs : FS)
    (hmiss : ∃ r ∈ REQUIRED_FILES, pexists (d ++ [r]) fs = false) :
    ∃ missing, create_package pk d fs = (fs, CPOut.exited 1 missing d) ∧
      (∀ r, r ∈ missing ↔
        (r ∈ REQUIRED_FILES ∧ pexists (d ++ [r]) fs = false)) ∧
      missing ≠ [] ∧ (1 : Nat) ≠ 0 := by
  obtain ⟨r0, hr0, hne0⟩ := hmiss
  have hmem : r0 ∈ missingOf d fs :=
    List.mem_filter.mpr ⟨hr0, by rw [hne0]; rfl⟩
  have hne : (missingOf d fs).isEmpty = false := by
    cases hM : missingOf d fs with
    | nil => rw [hM] at hmem; exact absurd hmem (List.not_mem_nil r0)
    | cons a t => rfl
  refine ⟨missingOf d fs, ?_, ?_, ?_, by decide⟩
  · unfold create_package
    rw [if_neg (fun hc => by rw [hne] at hc; exact Bool.noConfusion hc)]
  · intro r
    unfold missingOf
    rw [List.mem_filter]
    constructor
    · rintro ⟨h1, h2⟩
      exact ⟨h1, by
        cases hp : pexists (d ++ [r]) fs with
        | false => rfl
        | true => rw [hp] at h2; exact Bool.noConfusion h2⟩
    · rintro ⟨h1, h2⟩
      exact ⟨h1, by rw [h2]; rfl⟩
  · intro h0
    rw [h0] at hne
    exact Bool.noConfusion hne

theorem create_package_missing_witness :
    (∃ missing,
      create_package pkW dW fsMissingReadme
          = (fsMissingReadme, CPOut.exited 1 missing dW) ∧
        (∀ r, r ∈ missing ↔
          (r ∈ REQUIRED_FILES ∧ pexists (dW ++ [r]) fsMissingReadme = false)) ∧
        missing ≠ [] ∧ (1 : Nat) ≠ 0) ∧
    create_package pkW dW fsMissingReadme
      = (fsMissingReadme, CPOut.exited 1 [str "README.md"] dW) :=
  ⟨create_package_missing pkW dW fsMissingReadme (by decide), by rfl⟩

/-- Claim C2: on a staging directory containing all three required files,
`create_package` writes an archive whose entry set is exactly the files
below the staging directory keyed by their relative paths, deletes the
staging directory — while the failure path always returns the filesystem
unchanged — and returns the archive's path. -/
theorem create_package_success (pk : Packager) (d : Path) (fs : FS)
    (hall : ∀ r ∈ REQUIRED_FILES, pexists (d ++ [r]) fs = true)
    (hsep : stripDir d (archive_path pk) = none) :
    ∃ es, create_package pk d fs
        = (rmtree d (writeFile (archive_path pk) (Content.zipData es) fs),
           CPOut.ok (archive_path pk)) ∧
      (∀ rel c, (rel, c) ∈ es ↔ (rel ≠ [] ∧ (d ++ rel, c) ∈ fs.files)) ∧
      pexists d (create_package pk d fs).1 = false ∧
      readFile (archive_path pk) (create_package pk d fs).1
        = some (Content.zipData es) ∧
      (∀ fsX : FS, ∀ c missing pd,
        (create_package pk d fsX).2 = CPOut.exited c missing pd →
          (create_package pk d fsX).1 = fsX) := by
  have hM : missingOf d fs = [] := by
    unfold missingOf
    rw [List.filter_eq_nil_iff]
    intro r hr
    rw [hall r hr]
    decide
  have hE : (missingOf d fs).isEmpty = true := by rw [hM]; rfl
  have hres : create_package pk d fs
      = (rmtree d (writeFile (archive_path pk)
          (Content.zipData (walkFiles d fs)) fs),
         CPOut.ok (archive_path pk)) := by
    unfold create_package
    rw [if_pos hE]
  refine ⟨walkFiles d fs, hres, ?_, ?_, ?_, ?_⟩
  · intro rel c
    exact relFiles_mem fs.files d rel c
  · rw [hres]
    show pexists d (rmtree d _) = false
    unfold pexists
    rw [readFile_rmtree, dirMem_rmtree, stripDir_self]
    rfl
  · rw [hres]
    show readFile (archive_path pk) (rmtree d _) = _
    rw [readFile_rmtree]
    rw [if_neg (by rw [hsep]; exact fun hc => Bool.noConfusion hc)]
    rw [readFile_writeFile, if_pos rfl]
  · intro fsX c missing pd hx
    unfold create_package at hx ⊢
    by_cases hEX : (missingOf d fsX).isEmpty = true
    · rw [if_pos hEX] at hx
      exact absurd hx (by simp)
    · rw [if_neg hEX] at hx ⊢

theorem create_package_success_witness :
    (∃ es, create_package pkW dW fsComplete
        = (rmtree dW (writeFile (archive_path pkW) (Content.zipData es)
            fsComplete),
           CPOut.ok (archive_path pkW)) ∧
      (∀ rel c, (rel, c) ∈ es ↔
        (rel ≠ [] ∧ (dW ++ rel, c) ∈ fsComplete.files)) ∧
      pexists dW (create_package pkW dW fsComplete).1 = false ∧
      readFile (archive_path pkW) (create_package pkW dW fsComplete).1
        = some (Content.zipData es) ∧
      (∀ fsX : FS, ∀ c missing pd,
        (create_package pkW dW fsX).2 = CPOut.exited c missing pd →
          (create_package pkW dW fsX).1 = fsX)) ∧
    walkFiles dW fsComplete
      = [([str "manifest.json"], Content.manifestFile mW),
         ([str "icon.png"], Content.image 256 256 (str "PNG")),
         ([str "README.md"], Content.blob 1),
         ([str "a.dll"], Content.blob 2),
         ([str "b.dll"], Content.blob 3)] ∧
    (create_package pkW dW fsComplete).2 = CPOut.ok bepArchive :=
  ⟨create_package_success pkW dW fsComplete (by decide) (by decide),
   by rfl, by rfl⟩

/-- Claim C7: re-running `prepare_package` on the state a previous identical
call left behind gives the same warnings and result, and a filesystem with
the same content at every path: the initial delete-and-recreate of the
staging directory removes every artifact of the first call, so no leftover
state can make the retry fail or leave extra files in the staging
directory. -/
theorem prepare_package_retry (pk : Packager) (pil : Bool) (m : Manifest)
    (icon readme : Option Path) (fs0 : FS)
    (hng : noGhosts (temp_dir pk) fs0) :
    (prepare_package pk pil m icon readme
        (prepare_package pk pil m icon readme fs0).1).2
      = (prepare_package pk pil m icon readme fs0).2 ∧
    (∀ q, readFile q (prepare_package pk pil m icon readme
        (prepare_package pk pil m icon readme fs0).1).1
      = readFile q (prepare_package pk pil m icon readme fs0).1) ∧
    (∀ q, dirMem q (prepare_package pk pil m icon readme
        (prepare_package pk pil m icon readme fs0).1).1
      = dirMem q (prepare_package pk pil m icon readme fs0).1) := by
  have hng1 : noGhosts (temp_dir pk)
      (prepare_package pk pil m icon readme fs0).1 := by
    left
    have hdm : dirMem (temp_dir pk)
        (prepare_package pk pil m icon readme fs0).1 = true := by
      show dirMem _ (stagePost pk pil m icon readme (resetTemp pk fs0)).1 = true
      rw [stagePost_dirMem]
      show dirMem (temp_dir pk) (mkdir (temp_dir pk) _) = true
      rw [dirMem_mkdir, if_pos rfl]
    unfold pexists
    rw [hdm, Bool.or_true]
  have hoff : ∀ q, stripDir (temp_dir pk) q = none →
      readFile q (prepare_package pk pil m icon readme fs0).1
          = readFile q fs0 ∧
        dirMem q (prepare_package pk pil m icon readme fs0).1
          = dirMem q fs0 := by
    intro q hq
    constructor
    · show readFile q (stagePost pk pil m icon readme (resetTemp pk fs0)).1 = _
      rw [stagePost_off pk pil m icon readme (resetTemp pk fs0) q hq,
        (resetTemp_off pk fs0 q hq).1]
    · show dirMem q (stagePost pk pil m icon readme (resetTemp pk fs0)).1 = _
      rw [stagePost_dirMem, (resetTemp_off pk fs0 q hq).2]
  have key : FSeq
      (resetTemp pk (prepare_package pk pil m icon readme fs0).1)
      (resetTemp pk fs0) :=
    resetTemp_FSeq pk hng1 hng (fun q hq => (hoff q hq))
  obtain ⟨h2, h1⟩ := stagePost_congr key pk pil m icon readme
  exact ⟨h2, h1.1, h1.2⟩

theorem prepare_package_retry_witness :
    (prepare_package pkW true mW none none
        (prepare_package pkW true mW none none fs7).1).2
      = (prepare_package pkW true mW none none fs7).2 ∧
    readFile (temp_dir pkW ++ [str "manifest.json"])
        (prepare_package pkW true mW none none
          (prepare_package pkW true mW none none fs7).1).1
      = readFile (temp_dir pkW ++ [str "manifest.json"])
        (prepare_package pkW true mW none none fs7).1 := by
  have h := prepare_package_retry pkW true mW none none fs7
    (Or.inl (by decide))
  exact ⟨h.1, h.2.1 _⟩

/-- Claim C6: the only "file not found" condition `prepare_package` raises
is the missing build artifact — raised after the staging directory has been
created and `manifest.json` written (the icon and README steps already run);
the state at raise time is returned as is, so the staging directory is left
behind, and the top-level handler exits with status 1. -/
theorem prepare_package_missing_artifact (pk : Packager) (pil : Bool)
    (m : Manifest) (icon readme : Option Path) (fs0 : FS)
    (fsOut : FS) (warns : List Warn) (p : Path)
    (hrun : prepare_package pk pil m icon readme fs0
      = (fsOut, warns, Except.error (PyErr.fileNotFound p))) :
    p = build_zip_path pk ∧
    pexists (build_zip_path pk) fsOut = false ∧
    pexists (temp_dir pk) fsOut = true ∧
    readFile (temp_dir pk ++ [str "manifest.json"]) fsOut
      = some (Content.manifestFile m) ∧
    mainCatch (PyErr.fileNotFound p) = 1 := by
  unfold prepare_package at hrun
  rcases hA : iconPhase pk pil icon (manifestWrite pk m (resetTemp pk fs0))
    with ⟨af, aw, ae⟩
  cases ae with
  | some e =>
    rw [stagePost_icon_err pk pil m icon readme (resetTemp pk fs0) hA]
      at hrun
    have he : e = PyErr.fileNotFound p := by
      have h2 := congrArg (fun o => o.2.2) hrun
      simpa using h2
    have ho := iconPhase_err pk pil icon
      (manifestWrite pk m (resetTemp pk fs0)) hA
    rw [he] at ho
    exact PyErr.noConfusion ho
  | none =>
    rcases hC : readmePhase pk readme af with ⟨cf, cw, ce⟩
    cases ce with
    | some e =>
      rw [stagePost_readme_err pk pil m icon readme (resetTemp pk fs0) hA hC]
        at hrun
      have he : e = PyErr.fileNotFound p := by
        have h2 := congrArg (fun o => o.2.2) hrun
        simpa using h2
      have ho := readmePhase_err pk readme af hC
      rw [he] at ho
      exact PyErr.noConfusion ho
    | none =>
      rcases hE : zipPhase pk cf with ⟨ef, ez⟩
      rw [stagePost_zip pk pil m icon readme (resetTemp pk fs0) hA hC hE]
        at hrun
      have hef : ef = fsOut := congrArg (fun o => o.1) hrun
      have hez : ez = Except.error (PyErr.fileNotFound p) := by
        have h2 := congrArg (fun o => o.2.2) hrun
        simpa using h2
      subst hez
      unfold zipPhase at hE
      by_cases hb : pexists (build_zip_path pk) cf = true
      · rw [if_pos hb] at hE
        exfalso
        cases hc : readFile (build_zip_path pk) cf with
        | none =>
          rw [hc] at hE
          have h2 := congrArg (fun o => o.2) hE
          exact PyErr.noConfusion (Except.error.inj h2)
        | some c =>
          rw [hc] at hE
          cases c with
          | zipData es =>
            have h2 := congrArg (fun o => o.2) hE
            exact Except.noConfusion h2
          | manifestFile m' =>
            have h2 := congrArg (fun o => o.2) hE
            exact PyErr.noConfusion (Except.error.inj h2)
          | image w h f =>
            have h2 := congrArg (fun o => o.2) hE
            exact PyErr.noConfusion (Except.error.inj h2)
          | blob n =>
            have h2 := congrArg (fun o => o.2) hE
            exact PyErr.noConfusion (Except.error.inj h2)
      · rw [if_neg hb] at hE
        have hcf : cf = ef := congrArg (fun o => o.1) hE
        have hp : p = build_zip_path pk := by
          have h2 := congrArg (fun o => o.2) hE
          have h3 := Except.error.inj h2
          exact (PyErr.fileNotFound.inj h3).symm
        have hfsOut : fsOut = cf := (hcf.trans hef).symm
        subst hfsOut
        refine ⟨hp, Bool.eq_false_iff.mpr hb, ?_, ?_, rfl⟩
        · have hd : fsOut.dirs = (resetTemp pk fs0).dirs := by
            have hd1 : fsOut.dirs = af.dirs := by
              have h4 := readmePhase_dirs pk readme af
              rw [hC] at h4
              exact h4
            have hd2 : af.dirs
                = (manifestWrite pk m (resetTemp pk fs0)).dirs := by
              have h4 := iconPhase_dirs pk pil icon
                (manifestWrite pk m (resetTemp pk fs0))
              rw [hA] at h4
              exact h4
            exact hd1.trans hd2
          have hdm : dirMem (temp_dir pk) fsOut = true := by
            unfold dirMem
            rw [hd]
            show memPath (temp_dir pk :: _) (temp_dir pk) = true
            rw [memPath, if_pos rfl]
          unfold pexists
          rw [hdm, Bool.or_true]
        · have hmr : ¬ (temp_dir pk ++ [str "manifest.json"])
              = temp_dir pk ++ [str "README.md"] :=
            fun e => absurd (List.append_cancel_left e) (by decide)
          have hmi : ¬ (temp_dir pk ++ [str "manifest.json"])
              = temp_dir pk ++ [str "icon.png"] :=
            fun e => absurd (List.append_cancel_left e) (by decide)
          have h5 : readFile (temp_dir pk ++ [str "manifest.json"]) fsOut
              = readFile (temp_dir pk ++ [str "manifest.json"]) af := by
            have h4 := readmePhase_off pk readme af
              (temp_dir pk ++ [str "manifest.json"]) hmr
            rw [hC] at h4
            exact h4
          have h6 : readFile (temp_dir pk ++ [str "manifest.json"]) af
              = readFile (temp_dir pk ++ [str "manifest.json"])
                (manifestWrite pk m (resetTemp pk fs0)) := by
            have h4 := iconPhase_off pk pil icon
              (manifestWrite pk m (resetTemp pk fs0))
              (temp_dir pk ++ [str "manifest.json"]) hmi
            rw [hA] at h4
            exact h4
          rw [h5, h6]
          show readFile _ (writeFile _ _ _) = _
          rw [readFile_writeFile, if_pos rfl]

theorem prepare_package_missing_artifact_witness :
    pexists (temp_dir pkW)
        (prepare_package pkW true mW none none fsEmpty).1 = true ∧
    readFile (temp_dir pkW ++ [str "manifest.json"])
        (prepare_package pkW true mW none none fsEmpty).1
      = some (Content.manifestFile mW) ∧
    mainCatch (PyErr.fileNotFound (build_zip_path pkW)) = 1 := by
  have h := prepare_package_missing_artifact pkW true mW none none fsEmpty
    (prepare_package pkW true mW none none fsEmpty).1
    (prepare_package pkW true mW none none fsEmpty).2.1
    (build_zip_path pkW) (by rfl)
  exact ⟨h.2.2.1, h.2.2.2.1, h.2.2.2.2⟩

/-- Claim C8: with no icon path and no README path supplied (and the build
artifact present, its entries naming neither `icon.png` nor `README.md`),
`prepare_package` completes without raising; the staging directory it
returns contains neither `icon.png` nor `README.md`, and the absence of each
was reported only as a warning naming the exact destination path. -/
theorem prepare_package_no_icon_readme (pk : Packager) (pil : Bool)
    (m : Manifest) (fs0 : FS) (es : List (Path × Content))
    (hng : noGhosts (temp_dir pk) fs0)
    (hsep : stripDir (temp_dir pk) (build_zip_path pk) = none)
    (hz : readFile (build_zip_path pk) fs0 = some (Content.zipData es))
    (hes : ∀ e ∈ es, e.1 ≠ [str "icon.png"] ∧ e.1 ≠ [str "README.md"]) :
    (prepare_package pk pil m none none fs0).2.2
        = Except.ok (temp_dir pk) ∧
    (prepare_package pk pil m none none fs0).2.1
        = [Warn.noIcon (temp_dir pk ++ [str "icon.png"]),
           Warn.noReadme (temp_dir pk ++ [str "README.md"])] ∧
    pexists (temp_dir pk ++ [str "icon.png"])
        (prepare_package pk pil m none none fs0).1 = false ∧
    pexists (temp_dir pk ++ [str "README.md"])
        (prepare_package pk pil m none none fs0).1 = false := by
  have hA : iconPhase pk pil none (manifestWrite pk m (resetTemp pk fs0))
      = (manifestWrite pk m (resetTemp pk fs0),
         [Warn.noIcon (temp_dir pk ++ [str "icon.png"])], none) := rfl
  have hC : readmePhase pk none (manifestWrite pk m (resetTemp pk fs0))
      = (manifestWrite pk m (resetTemp pk fs0),
         [Warn.noReadme (temp_dir pk ++ [str "README.md"])], none) := rfl
  have hbm : ¬ (build_zip_path pk) = temp_dir pk ++ [str "manifest.json"] :=
    fun e => by
      rw [e, stripDir_append] at hsep
      exact Option.noConfusion hsep
  have hzr : readFile (build_zip_path pk)
      (manifestWrite pk m (resetTemp pk fs0))
        = some (Content.zipData es) := by
    show readFile _ (writeFile _ _ _) = _
    rw [readFile_writeFile, if_neg hbm, (resetTemp_off pk fs0 _ hsep).1, hz]
  have hpb : pexists (build_zip_path pk)
      (manifestWrite pk m (resetTemp pk fs0)) = true := by
    unfold pexists
    rw [hzr]
    rfl
  have hE : zipPhase pk (manifestWrite pk m (resetTemp pk fs0))
      = (extractAll (temp_dir pk) es (manifestWrite pk m (resetTemp pk fs0)),
         Except.ok (temp_dir pk)) := by
    unfold zipPhase
    rw [if_pos hpb, hzr]
  have hst := stagePost_zip pk pil m none none (resetTemp pk fs0) hA hC hE
  have hres : prepare_package pk pil m none none fs0
      = (extractAll (temp_dir pk) es (manifestWrite pk m (resetTemp pk fs0)),
         [Warn.noIcon (temp_dir pk ++ [str "icon.png"])]
           ++ [Warn.noReadme (temp_dir pk ++ [str "README.md"])],
         Except.ok (temp_dir pk)) := by
    unfold prepare_package
    exact hst
  rw [hres]
  have habsent : ∀ nm : PyStr, nm = str "icon.png" ∨ nm = str "README.md" →
      (∀ e ∈ es, e.1 ≠ [nm]) →
      pexists (temp_dir pk ++ [nm])
        (extractAll (temp_dir pk) es
          (manifestWrite pk m (resetTemp pk fs0))) = false := by
    intro nm hnm hesn
    have hq : stripDir (temp_dir pk) (temp_dir pk ++ [nm]) = some [nm] :=
      stripDir_append _ _
    have hwipe := resetTemp_wipes pk fs0 hng (temp_dir pk ++ [nm]) [nm] hq
    have hmn : ¬ (temp_dir pk ++ [nm]) = temp_dir pk ++ [str "manifest.json"] :=
      fun e => by
        have h2 := List.append_cancel_left e
        have h3 : nm = str "manifest.json" := by
          injection h2
        rcases hnm with h4 | h4 <;> rw [h4] at h3 <;> exact absurd h3 (by decide)
    have hrf : readFile (temp_dir pk ++ [nm])
        (extractAll (temp_dir pk) es
          (manifestWrite pk m (resetTemp pk fs0))) = none := by
      rw [readFile_extractAll_off _ _ _ _
        (fun e he heq => (hesn e he) (List.append_cancel_left heq))]
      show readFile _ (writeFile _ _ _) = _
      rw [readFile_writeFile, if_neg hmn]
      exact hwipe.1
    have hne : ¬ temp_dir pk = temp_dir pk ++ [nm] := fun e => by
      have h2 := congrArg List.length e
      simp [List.length_append] at h2
    have hdm : dirMem (temp_dir pk ++ [nm])
        (extractAll (temp_dir pk) es
          (manifestWrite pk m (resetTemp pk fs0))) = false := by
      rw [dirMem_extractAll]
      show dirMem _ (writeFile _ _ _) = false
      rw [dirMem_writeFile, hwipe.2, if_neg hne]
    unfold pexists
    rw [hrf, hdm]
    rfl
  refine ⟨rfl, rfl, ?_, ?_⟩
  · exact habsent (str "icon.png") (Or.inl rfl) (fun e he => (hes e he).1)
  · exact habsent (str "README.md") (Or.inr rfl) (fun e he => (hes e he).2)

theorem prepare_package_no_icon_readme_witness :
    (prepare_package pkW true mW none none fs8).2.2
        = Except.ok (temp_dir pkW) ∧
    (prepare_package pkW true mW none none fs8).2.1
        = [Warn.noIcon (temp_dir pkW ++ [str "icon.png"]),
           Warn.noReadme (temp_dir pkW ++ [str "README.md"])] ∧
    pexists (temp_dir pkW ++ [str "icon.png"])
        (prepare_package pkW true mW none none fs8).1 = false ∧
    pexists (temp_dir pkW ++ [str "README.md"])
        (prepare_package pkW true mW none none fs8).1 = false :=
  prepare_package_no_icon_readme pkW true mW fs8
    [([str "a.dll"], Content.blob 2), ([str "b.dll"], Content.blob 3)]
    (Or.inl (by decide)) (by decide) (by rfl) (by decide)

theorem create_package_ok_path (pk : Packager) (d : Path) (fs : FS)
    {g : FS} {ap : Path}
    (h : create_package pk d fs = (g, CPOut.ok ap)) : ap = archive_path pk := by
  unfold create_package at h
  by_cases hE : (missingOf d fs).isEmpty = true
  · rw [if_pos hE] at h
    have h2 : CPOut.ok (archive_path pk) = CPOut.ok ap :=
      congrArg Prod.snd h
    exact (CPOut.ok.inj h2).symm
  · rw [if_neg hE] at h
    have h2 : CPOut.exited 1 (missingOf d fs) d = CPOut.ok ap :=
      congrArg Prod.snd h
    exact CPOut.noConfusion h2

/-- Claim C5 (amended): whenever a run of `main` produces an archive, its
path is the thunderstore directory plus the fixed name
`BepInEx-MelonLoader_Loader-<variant>-<version>.zip`, built only from the
variant tag and version string; the supplied namespace and package-name
flags do not enter the archive name. -/
theorem archive_name_fixed (pil : Bool) (a : Args) (fs : FS) (ap : Path)
    (h : (main pil a fs).archive = some ap) :
    ap = a.thunderstore_dir ++
      [str "BepInEx-MelonLoader_Loader-" ++ pyFormat a.variant ++
        str "-" ++ a.version ++ str ".zip"] := by
  unfold main at h
  by_cases h0 : pexists a.output_dir fs = false
  · rw [if_pos h0] at h
    exact Option.noConfusion h
  · rw [if_neg h0] at h
    rcases hP : prepare_package (mkPackager a) pil (main_manifest a).1
        (main_icon_path a) (main_readme_path a) (mkdir a.thunderstore_dir fs)
      with ⟨fs2, w1, res⟩
    rw [hP] at h
    cases res with
    | error e => exact Option.noConfusion h
    | ok pdir =>
      rcases hCP : create_package (mkPackager a) pdir fs2 with ⟨fs3, out⟩
      have h2 : (mainPack (main_manifest a).2 w1
          (create_package (mkPackager a) pdir fs2)).archive = some ap := h
      rw [hCP] at h2
      cases out with
      | exited c miss pd => exact Option.noConfusion h2
      | ok ap' =>
        have hap : ap' = ap := Option.some.inj h2
        rw [← hap]
        exact create_package_ok_path (mkPackager a) pdir fs2 hCP

theorem archive_name_fixed_witness :
    bepArchive = argsFoo.thunderstore_dir ++
      [str "BepInEx-MelonLoader_Loader-" ++ pyFormat argsFoo.variant ++
        str "-" ++ argsFoo.version ++ str ".zip"] :=
  archive_name_fixed true argsFoo fsFoo bepArchive (by rfl)

/-- Claim C5 counterexample: with the namespace flag set to `Foo` and the
package name to `Bar_Loader`, a successful run still produces the archive
with the fixed `BepInEx-MelonLoader_Loader` prefix; the name the claimed
template would derive from the supplied namespace differs from the actual
archive path and no file exists at it. -/
theorem archive_name_template_cex :
    (main true argsFoo fsFoo).archive = some bepArchive ∧
    bepArchive ≠ fooTemplateArchive ∧
    pexists fooTemplateArchive (main true argsFoo fsFoo).fs = false :=
  ⟨by rfl, by decide, by rfl⟩

/-- Claim C9 (code bug): with `--variant` omitted, argparse leaves the
default list object `['IL2CPP-BepInEx6']` in `args.variant` (defaults bypass
the `choices` check), so the packager renders it as a Python list inside the
f-string and looks the artifact up under a bracketed name that differs from
the intended `MLLoader-IL2CPP-BepInEx6-v2.1.0.zip`; a default-flag run with
the correctly named artifact present fails with exit status 1 and produces
no archive. -/
theorem variant_default_list_bug :
    defaultArgs.variant = PyVal.list [str "IL2CPP-BepInEx6"] ∧
    build_zip_path (mkPackager defaultArgs) ≠ intendedZipC9 ∧
    pexists intendedZipC9 fsC9 = true ∧
    (main true defaultArgs fsC9).exit = 1 ∧
    (main true defaultArgs fsC9).archive = none :=
  ⟨rfl, by decide, by decide, by rfl, by rfl⟩

end TSP
